import Mathlib

/-!
# Verification of the gobjectify object-model augmentation engine

This file gives a shallow embedding, in Lean 4, of the parts of the
`gobjectify` TypeScript library that the specification's claims are about:

* the numeric write-time validation (clamping and truncation) installed by the
  `GClass` decorator (`src/gobjectify.ts`, `prototype._init`),
* the per-kind numeric range tables (`NUMERIC_GTYPE_DEFAULTS` in
  `src/__internal/property_helpers.ts` and `num_sizes_and_spec` in
  `src/__internal/__property.ts`),
* default-value resolution of `primitive_property` (`src/__internal/__property.ts`),
* the accessor-pair validation performed at first instantiation,
* the signal side table (`signals_map`) driven by the `Signal` decorator and
  drained by `GClass`,
* the `Debounce` method decorator (timer-based rate limiting),
* the `connect_async` signal-to-promise bridge.

JavaScript numbers are modelled as rationals (`ℚ`); JavaScript `null` and
`undefined` results are collapsed into `Option.none`.  Definitions follow the
TypeScript source; definitions whose names start with `spec_` instead follow
the specification's wording and are compared against the source-derived ones.
-/

/-! ## Numeric constants

`GLib.MAXINT32`, `GLib.MININT32`, `GLib.MAXUINT32`, and the JavaScript
`Number` constants, as exact rationals.  `Number.MAX_VALUE` is the largest
finite double `(2^53 - 1) · 2^971`; `Number.MIN_VALUE` is the smallest
positive double `2^(-1074)`; `Number.MAX_SAFE_INTEGER = 2^53 - 1`. -/

def GLib_MAXINT32 : ℚ := 2147483647

def GLib_MININT32 : ℚ := -2147483648

def GLib_MAXUINT32 : ℚ := 4294967295

def Number_MAX_VALUE : ℚ := (2 ^ 53 - 1) * 2 ^ 971

def Number_MIN_VALUE : ℚ := 1 / 2 ^ 1074

def Number_MAX_SAFE_INTEGER : ℚ := 2 ^ 53 - 1

def Number_MIN_SAFE_INTEGER : ℚ := -(2 ^ 53 - 1)

/-- The float32 maximum `3.4028235e38` used for `GObject.TYPE_FLOAT` in
`NUMERIC_GTYPE_DEFAULTS`. -/
def GLib_FLOAT_MAX : ℚ := 34028235 * 10 ^ 31

/-! ## GTypes and the write-time numeric defaults table -/

/-- The GObject fundamental types relevant to property installation
(`spec.value_type` in the installed setter of `GClass`). -/
inductive GType where
  | string
  | boolean
  | int
  | uint
  | int64
  | uint64
  | float
  | double
  | object
  | genum
  deriving DecidableEq, Repr

/-- A `{ max, min }` record as stored in `NUMERIC_GTYPE_DEFAULTS`
(`src/__internal/property_helpers.ts`). -/
structure NumRange where
  max : ℚ
  min : ℚ
  deriving DecidableEq, Repr

/-- The pair list of the `ConstMap` literal `NUMERIC_GTYPE_DEFAULTS`
(`src/__internal/property_helpers.ts` lines 16–25), in source order. -/
def NUMERIC_GTYPE_DEFAULTS_pairs : List (GType × NumRange) :=
  [ (GType.double, { max := Number_MAX_VALUE, min := Number_MIN_VALUE }),
    (GType.int, { max := GLib_MAXINT32, min := GLib_MININT32 }),
    (GType.uint, { max := GLib_MAXUINT32, min := 0 }),
    (GType.int64, { max := Number_MAX_SAFE_INTEGER, min := Number_MIN_SAFE_INTEGER }),
    (GType.uint64, { max := Number_MAX_SAFE_INTEGER, min := 0 }),
    (GType.float, { max := GLib_FLOAT_MAX, min := -GLib_FLOAT_MAX }) ]

/-- Method `looseGet` of `NUMERIC_GTYPE_DEFAULTS`: `Map.prototype.get`, returning
`none` for keys not in the map. -/
def NUMERIC_GTYPE_DEFAULTS_looseGet (key : GType) : Option NumRange :=
  (NUMERIC_GTYPE_DEFAULTS_pairs.find? (fun p => p.1 = key)).map (fun p => p.2)

/-! ## JavaScript truncation (`Math.trunc`) -/

/-- JavaScript `Math.trunc`: rounds toward zero (ceiling for negative inputs, floor
otherwise). -/
def js_trunc (q : ℚ) : ℚ :=
  if q < 0 then (⌈q⌉ : ℚ) else (⌊q⌋ : ℚ)

/-! ## The installed setter of `GClass`

`src/gobjectify.ts` lines 296–309 (inside `prototype._init`): for a property
whose `spec.value_type` is found in `NUMERIC_GTYPE_DEFAULTS`, the wrapper
setter resolves `min`/`max` from the property's descriptor
(`property_descriptors[key]?.min ?? maybe_default_nums.min`, here the
`Option ℚ` arguments `dmin`/`dmax` model `property_descriptors[key]?.min`
and `?.max`), then runs

```ts
if (val > max) val = max
if (val < min) val = min
if (!is_double) val = Math.trunc(val)
desc.set?.call(instance, val)
```

with `is_double := spec.value_type === GObject.TYPE_DOUBLE`.  The function
returns the value delegated to the original setter; for non-numeric value
types the original setter is installed unwrapped (`set = desc.set`), so the
delegated value is the written value itself. -/
def installed_set (value_type : GType) (dmin dmax : Option ℚ) (v : ℚ) : ℚ :=
  match NUMERIC_GTYPE_DEFAULTS_looseGet value_type with
  | some maybe_default_nums =>
      let min := dmin.getD maybe_default_nums.min
      let max := dmax.getD maybe_default_nums.max
      let is_double := value_type = GType.double
      let v1 := if v > max then max else v
      let v2 := if v1 < min then min else v1
      if is_double then v2 else js_trunc v2
  | none => v

/-- The resolved lower write bound of the installed setter: the descriptor's
`min` when present, otherwise the `NUMERIC_GTYPE_DEFAULTS` entry's `min`. -/
def resolved_write_min (value_type : GType) (dmin : Option ℚ) : Option ℚ :=
  (NUMERIC_GTYPE_DEFAULTS_looseGet value_type).map (fun nd => dmin.getD nd.min)

/-- The resolved upper write bound of the installed setter. -/
def resolved_write_max (value_type : GType) (dmax : Option ℚ) : Option ℚ :=
  (NUMERIC_GTYPE_DEFAULTS_looseGet value_type).map (fun nd => dmax.getD nd.max)

/-! ## Specification-side definitions (for refinement comparison) -/

/-- Modelled from the spec's wording: `clamp` "constrain a numeric value to a
closed range" `[lo, hi]`. -/
def spec_clamp (lo hi v : ℚ) : ℚ := min hi (max lo v)

/-- Modelled from the spec's wording: the integer property kinds of the data
model (`int32`, `uint32`, and the 64-bit integral gtypes reachable through
manually declared property specs).  `double` is the data model's only
fractional kind. -/
def spec_integer_kind : GType → Bool
  | GType.int => true
  | GType.uint => true
  | GType.int64 => true
  | GType.uint64 => true
  | _ => false

/-! ### Clamp helper lemmas -/

lemma installed_clamp_eq_spec_clamp (lo hi v : ℚ) (h : lo ≤ hi) :
    (if (if v > hi then hi else v) < lo then lo else (if v > hi then hi else v))
      = spec_clamp lo hi v := by
  unfold spec_clamp
  rw [min_def, max_def]
  split_ifs <;> linarith

lemma js_trunc_intCast (n : ℤ) : js_trunc (n : ℚ) = n := by
  unfold js_trunc
  split <;> simp

lemma looseGet_int :
    NUMERIC_GTYPE_DEFAULTS_looseGet GType.int
      = some { max := GLib_MAXINT32, min := GLib_MININT32 } := rfl

lemma looseGet_uint :
    NUMERIC_GTYPE_DEFAULTS_looseGet GType.uint
      = some { max := GLib_MAXUINT32, min := 0 } := rfl

lemma looseGet_double :
    NUMERIC_GTYPE_DEFAULTS_looseGet GType.double
      = some { max := Number_MAX_VALUE, min := Number_MIN_VALUE } := rfl

lemma js_trunc_clamp_comm (a b : ℤ) (hab : (a : ℚ) ≤ (b : ℚ)) (v : ℚ) :
    js_trunc (spec_clamp (a : ℚ) (b : ℚ) v) = spec_clamp (a : ℚ) (b : ℚ) (js_trunc v) := by
  have hfloor : 0 ≤ v → js_trunc v = (⌊v⌋ : ℚ) := fun h => by
    unfold js_trunc; rw [if_neg (not_lt.mpr h)]
  have hceil : v < 0 → js_trunc v = (⌈v⌉ : ℚ) := fun h => by
    unfold js_trunc; rw [if_pos h]
  rcases lt_or_le v (a : ℚ) with hva | hva
  · have hclamp : spec_clamp (a : ℚ) (b : ℚ) v = (a : ℚ) := by
      unfold spec_clamp; rw [max_eq_left (le_of_lt hva), min_eq_right hab]
    have htr : js_trunc v ≤ (a : ℚ) := by
      rcases lt_or_le v 0 with hv0 | hv0
      · rw [hceil hv0]; exact_mod_cast Int.ceil_le.mpr (le_of_lt hva)
      · rw [hfloor hv0]; exact le_trans (Int.floor_le v) (le_of_lt hva)
    rw [hclamp, js_trunc_intCast]
    unfold spec_clamp
    rw [max_eq_left htr, min_eq_right hab]
  · rcases le_or_lt v (b : ℚ) with hvb | hvb
    · have hclamp : spec_clamp (a : ℚ) (b : ℚ) v = v := by
        unfold spec_clamp; rw [max_eq_right hva, min_eq_right hvb]
      have h1 : (a : ℚ) ≤ js_trunc v := by
        rcases lt_or_le v 0 with hv0 | hv0
        · rw [hceil hv0]; exact le_trans hva (Int.le_ceil v)
        · rw [hfloor hv0]; exact_mod_cast Int.le_floor.mpr hva
      have h2 : js_trunc v ≤ (b : ℚ) := by
        rcases lt_or_le v 0 with hv0 | hv0
        · rw [hceil hv0]; exact_mod_cast Int.ceil_le.mpr hvb
        · rw [hfloor hv0]; exact le_trans (Int.floor_le v) hvb
      rw [hclamp]
      unfold spec_clamp
      rw [max_eq_right h1, min_eq_right h2]
    · have hclamp : spec_clamp (a : ℚ) (b : ℚ) v = (b : ℚ) := by
        unfold spec_clamp
        rw [max_eq_right hva, min_eq_left (le_of_lt hvb)]
      have htr : (b : ℚ) ≤ js_trunc v := by
        rcases lt_or_le v 0 with hv0 | hv0
        · rw [hceil hv0]; exact le_trans (le_of_lt hvb) (Int.le_ceil v)
        · rw [hfloor hv0]; exact_mod_cast Int.le_floor.mpr (le_of_lt hvb)
      rw [hclamp, js_trunc_intCast]
      unfold spec_clamp
      rw [max_eq_right (le_trans hab htr), min_eq_left htr]

/-- C1: for every numeric property installed by `GClass` and every value `v`
written through its installed setter, the value delegated to the original
setter is `trunc(clamp(v, min, max))` for integer kinds and
`clamp(v, min, max)` for the fractional kind `double`, where `min`/`max`
are the resolved bounds (descriptor value if present, else the per-gtype
defaults table entry). -/
theorem gclass_numeric_write_policy (vt : GType) (dmin dmax : Option ℚ) (nd : NumRange)
    (hvt : NUMERIC_GTYPE_DEFAULTS_looseGet vt = some nd)
    (hmm : dmin.getD nd.min ≤ dmax.getD nd.max) (v : ℚ) :
    (spec_integer_kind vt = true →
      installed_set vt dmin dmax v
        = js_trunc (spec_clamp (dmin.getD nd.min) (dmax.getD nd.max) v)) ∧
    (vt = GType.double →
      installed_set vt dmin dmax v
        = spec_clamp (dmin.getD nd.min) (dmax.getD nd.max) v) := by
  constructor
  · intro hint
    have hne : ¬(vt = GType.double) := by
      cases vt <;> simp_all [spec_integer_kind]
    unfold installed_set
    rw [hvt]
    simp only [if_neg hne]
    rw [installed_clamp_eq_spec_clamp _ _ _ hmm]
  · intro hd
    unfold installed_set
    rw [hvt]
    simp only [if_pos hd]
    rw [installed_clamp_eq_spec_clamp _ _ _ hmm]

theorem gclass_numeric_write_policy_witness :
    installed_set GType.uint none none (7 / 2)
      = js_trunc (spec_clamp 0 GLib_MAXUINT32 (7 / 2)) :=
  (gclass_numeric_write_policy GType.uint none none
    { max := GLib_MAXUINT32, min := 0 }
    looseGet_uint
    (by norm_num [GLib_MAXUINT32]) (7 / 2)).1 rfl

/-- C2 counterexample: the installed setter clamps first and truncates second,
so for an int32 property with the fractional lower bound `1/2` a write of
`1/5` delegates `trunc(clamp(1/5)) = 0`, while truncate-then-clamp (the
claim's order) would give `clamp(trunc(1/5)) = 1/2`. -/
theorem gclass_trunc_order_counterexample :
    installed_set GType.int (some (1 / 2)) (some 10) (1 / 5) = 0 ∧
    spec_clamp (1 / 2) 10 (js_trunc (1 / 5)) = 1 / 2 ∧
    (0 : ℚ) ≠ 1 / 2 := by
  refine ⟨?_, ?_, by norm_num⟩
  · unfold installed_set
    rw [looseGet_int]
    simp only [Option.getD_some]
    rw [if_neg (show ¬(GType.int = GType.double) by simp)]
    norm_num [js_trunc]
  · unfold spec_clamp js_trunc
    norm_num

/-- C2 (amended): on every write to a numeric property, the installed setter
first clamps the value to `[min, max]` and then truncates toward zero for
integer kinds; when the resolved bounds are integers this coincides with
truncate-then-clamp.  Fractional (`double`) writes are clamped without
truncation by the other conjunct of `gclass_numeric_write_policy`. -/
theorem gclass_numeric_write_clamps_then_truncates (vt : GType) (dmin dmax : Option ℚ)
    (nd : NumRange) (hvt : NUMERIC_GTYPE_DEFAULTS_looseGet vt = some nd)
    (a b : ℤ) (hra : dmin.getD nd.min = (a : ℚ)) (hrb : dmax.getD nd.max = (b : ℚ))
    (hab : (a : ℚ) ≤ (b : ℚ)) (v : ℚ) (hint : spec_integer_kind vt = true) :
    installed_set vt dmin dmax v
      = js_trunc (spec_clamp (dmin.getD nd.min) (dmax.getD nd.max) v) ∧
    installed_set vt dmin dmax v
      = spec_clamp (dmin.getD nd.min) (dmax.getD nd.max) (js_trunc v) := by
  have hmm : dmin.getD nd.min ≤ dmax.getD nd.max := by rw [hra, hrb]; exact hab
  have h1 := (gclass_numeric_write_policy vt dmin dmax nd hvt hmm v).1 hint
  refine ⟨h1, ?_⟩
  rw [h1, hra, hrb]
  exact js_trunc_clamp_comm a b hab v

theorem gclass_numeric_write_clamps_then_truncates_witness :
    installed_set GType.int (some (-5)) (some 10) (-7 / 2)
      = spec_clamp (-5) 10 (js_trunc (-7 / 2)) :=
  (gclass_numeric_write_clamps_then_truncates GType.int (some (-5)) (some 10)
    { max := GLib_MAXINT32, min := GLib_MININT32 }
    looseGet_int (-5) 10 (by norm_num) (by norm_num) (by norm_num) (-7 / 2) rfl).2

/-! ## `num_sizes_and_spec` and `primitive_property` (`src/__internal/__property.ts`) -/

/-- The numeric property kinds of the descriptor model. -/
inductive NumKind where
  | int32
  | uint32
  | double
  deriving DecidableEq, Repr

/-- The range half of the `num_sizes_and_spec` `ConstMap`
(`src/__internal/__property.ts` lines 99–103); the `spec` constructor half is
platform-side and not modelled. -/
def num_sizes_and_spec : NumKind → NumRange
  | NumKind.int32 => { max := GLib_MAXINT32, min := GLib_MININT32 }
  | NumKind.uint32 => { max := GLib_MAXUINT32, min := 0 }
  | NumKind.double => { max := Number_MAX_VALUE, min := -Number_MAX_VALUE }

/-- The `min`/`max`/`default` fields of a `NumberConfig`
(`src/__internal/__property.ts`); `nick`, `blurb` and `flags` do not affect
numeric resolution. -/
structure NumberConfig where
  min : Option ℚ := none
  max : Option ℚ := none
  default : Option ℚ := none
  deriving DecidableEq, Repr

/-- From `primitive_property`: `const min = config?.min ?? range_and_spec.min`. -/
def primitive_property_min (kind : NumKind) (config : NumberConfig) : ℚ :=
  config.min.getD (num_sizes_and_spec kind).min

/-- From `primitive_property`: `const max = config?.max ?? range_and_spec.max`. -/
def primitive_property_max (kind : NumKind) (config : NumberConfig) : ℚ :=
  config.max.getD (num_sizes_and_spec kind).max

/-- From `primitive_property`:
`const default_val = config?.default ?? (0 >= min && 0 <= max ? 0 : min)`. -/
def primitive_property_default (kind : NumKind) (config : NumberConfig) : ℚ :=
  config.default.getD
    (if 0 ≥ primitive_property_min kind config ∧ 0 ≤ primitive_property_max kind config
      then 0 else primitive_property_min kind config)

/-- C4 counterexample: for an int32 descriptor with bounds `[-10, -5]` and no
explicit default, the resolved default is the lower bound `-10`, although the
bound nearest to `0` is `-5` (`|-5| < |-10|`). -/
theorem primitive_default_not_nearest_bound :
    primitive_property_default NumKind.int32
      { min := some (-10), max := some (-5), default := none } = -10 ∧
    ¬((-10 : ℚ) ≤ 0 ∧ (0 : ℚ) ≤ -5) ∧
    |(-5 : ℚ)| < |(-10 : ℚ)| ∧
    ((-10 : ℚ) ≠ -5) := by
  refine ⟨?_, by norm_num, by norm_num, by norm_num⟩
  norm_num [primitive_property_default, primitive_property_min, primitive_property_max]

/-- C4 (amended): for every numeric property descriptor with no explicit
default, the resolved default value is `0` when `0` lies within
`[min, max]`, and otherwise is the lower bound `min` (which is the bound
nearest to `0` only when `min > 0`). -/
theorem primitive_default_zero_or_min (kind : NumKind) (config : NumberConfig)
    (h : config.default = none) :
    (primitive_property_min kind config ≤ 0 ∧ 0 ≤ primitive_property_max kind config →
      primitive_property_default kind config = 0) ∧
    (¬(primitive_property_min kind config ≤ 0 ∧ 0 ≤ primitive_property_max kind config) →
      primitive_property_default kind config = primitive_property_min kind config) := by
  unfold primitive_property_default
  rw [h]
  simp only [Option.getD_none]
  constructor
  · intro hin
    rw [if_pos ⟨hin.1, hin.2⟩]
  · intro hout
    rw [if_neg hout]

theorem primitive_default_zero_or_min_witness :
    primitive_property_default NumKind.int32
        { min := some (-10), max := some (-5), default := none }
      = primitive_property_min NumKind.int32
        { min := some (-10), max := some (-5), default := none } :=
  (primitive_default_zero_or_min NumKind.int32
    { min := some (-10), max := some (-5), default := none } rfl).2
    (by norm_num [primitive_property_min, primitive_property_max])

/-- C3: the write-time fallback range table maps `TYPE_DOUBLE` to the bounds
`{ max := Number.MAX_VALUE, min := Number.MIN_VALUE }`, and `Number.MIN_VALUE`
is the smallest **positive** double, not `-Number.MAX_VALUE`.  Consequently a
manually declared double property (no descriptor, so both bound arguments are
`none`) written with `-1` delegates `Number.MIN_VALUE` to its setter, while
clamping over the claimed range `[-Number.MAX_VALUE, Number.MAX_VALUE]` would
leave `-1` unchanged.  The descriptor-path table `num_sizes_and_spec` does map
`double` to `-Number.MAX_VALUE`. -/
theorem numeric_gtype_defaults_double_min_positive :
    NUMERIC_GTYPE_DEFAULTS_looseGet GType.double
      = some { max := Number_MAX_VALUE, min := Number_MIN_VALUE } ∧
    0 < Number_MIN_VALUE ∧
    Number_MIN_VALUE ≠ -Number_MAX_VALUE ∧
    installed_set GType.double none none (-1) = Number_MIN_VALUE ∧
    spec_clamp (-Number_MAX_VALUE) Number_MAX_VALUE (-1) = -1 ∧
    (num_sizes_and_spec NumKind.double).min = -Number_MAX_VALUE := by
  refine ⟨looseGet_double, by norm_num [Number_MIN_VALUE], ?_, ?_, ?_, rfl⟩
  · intro h
    have h1 : (0 : ℚ) < Number_MIN_VALUE := by norm_num [Number_MIN_VALUE]
    have h2 : (0 : ℚ) < Number_MAX_VALUE := by norm_num [Number_MAX_VALUE]
    rw [h] at h1
    linarith
  · unfold installed_set
    rw [looseGet_double]
    simp only [Option.getD_none]
    have hmax : ¬((-1 : ℚ) > Number_MAX_VALUE) := by norm_num [Number_MAX_VALUE]
    have hmin : (-1 : ℚ) < Number_MIN_VALUE := by norm_num [Number_MIN_VALUE]
    rw [if_neg hmax, if_pos hmin]
    simp
  · unfold spec_clamp
    have h1 : (-Number_MAX_VALUE : ℚ) ≤ -1 := by norm_num [Number_MAX_VALUE]
    have h2 : (-1 : ℚ) ≤ Number_MAX_VALUE := by norm_num [Number_MAX_VALUE]
    rw [max_eq_right h1, min_eq_right h2]

/-! ## Accessor validation at first instantiation (`src/gobjectify.ts` 275–291)

`prototype._init` iterates the merged property table; for each property whose
flags are writable and not construct-only it looks up a property descriptor on
the class prototype first (`Object.getOwnPropertyDescriptor(Object.getPrototypeOf(this), key)`)
and falls back to the instance (`?? Object.getOwnPropertyDescriptor(this, key)`).
If no descriptor is found, or its `get` or `set` member is not a function, it
throws an error built from a dedented template naming the class and the
property. -/

def ParamFlags_READABLE : Nat := 1

def ParamFlags_WRITABLE : Nat := 2

def ParamFlags_CONSTRUCT : Nat := 4

def ParamFlags_CONSTRUCT_ONLY : Nat := 8

/-- Table `FLAG_PRESETS` of `src/__internal/__property.ts`: the four flag strings
and their `GObject.ParamFlags` values. -/
def FLAG_PRESETS : List (String × Nat) :=
  [ ("CONSTANT", ParamFlags_READABLE),
    ("READWRITE", ParamFlags_READABLE ||| ParamFlags_WRITABLE),
    ("CONSTRUCT", ParamFlags_READABLE ||| ParamFlags_WRITABLE ||| ParamFlags_CONSTRUCT),
    ("CONSTRUCT_ONLY", ParamFlags_READABLE ||| ParamFlags_WRITABLE ||| ParamFlags_CONSTRUCT_ONLY) ]

/-- A JavaScript property descriptor as inspected by `_init`: whether
`typeof desc.get === "function"` and `typeof desc.set === "function"`. -/
structure JSAccessorDesc where
  has_get : Bool
  has_set : Bool
  deriving DecidableEq, Repr

/-- Condition `spec.flags & GObject.ParamFlags.WRITABLE && !(spec.flags & GObject.ParamFlags.CONSTRUCT_ONLY)`. -/
def writable_not_construct_only (flags : Nat) : Bool :=
  (flags.land ParamFlags_WRITABLE != 0) && (flags.land ParamFlags_CONSTRUCT_ONLY == 0)

/-- Class-prototype descriptor wins over the instance descriptor (`??`). -/
def accessor_lookup (proto own : String → Option JSAccessorDesc) (key : String) :
    Option JSAccessorDesc :=
  match proto key with
  | some d => some d
  | none => own key

/-- Check that `desc !== undefined`, `typeof desc.get` is a function, and `typeof desc.set` is a function. -/
def accessor_pair_ok (proto own : String → Option JSAccessorDesc) (key : String) : Bool :=
  match accessor_lookup proto own key with
  | some d => d.has_get && d.has_set
  | none => false

def single_quote : String := String.singleton (Char.ofNat 39)

/-- The thrown message after `dedent` strips the template's indentation and
the trailing-backslash line continuation. -/
def accessor_error_msg (class_name key : String) : String :=
  "GClass:\nWriteable custom GObject property " ++ single_quote ++ key ++ single_quote
    ++ " on GClass decorated class " ++ single_quote ++ class_name ++ single_quote
    ++ " is not configured with a getter or a setter function."

/-- The accessor-validation pass of `prototype._init` over the merged
property table (`Object.entries(properties)` in source order); the first
writable, non-construct-only property without a get/set pair aborts the
initialization with the thrown error. -/
def gclass_init_accessors (class_name : String) (props : List (String × Nat))
    (proto own : String → Option JSAccessorDesc) : Except String Unit :=
  match props with
  | [] => Except.ok ()
  | (key, flags) :: rest =>
    if writable_not_construct_only flags then
      if accessor_pair_ok proto own key then
        gclass_init_accessors class_name rest proto own
      else
        Except.error (accessor_error_msg class_name key)
    else
      gclass_init_accessors class_name rest proto own

lemma accessor_error_msg_mentions (class_name key : String) :
    (∃ u v, u ++ class_name.data ++ v = (accessor_error_msg class_name key).data) ∧
    (∃ u v, u ++ key.data ++ v = (accessor_error_msg class_name key).data) := by
  unfold accessor_error_msg
  constructor
  · refine ⟨("GClass:\nWriteable custom GObject property " ++ single_quote ++ key
        ++ single_quote ++ " on GClass decorated class " ++ single_quote).data,
      (single_quote ++ " is not configured with a getter or a setter function.").data, ?_⟩
    simp [String.data_append, List.append_assoc]
  · refine ⟨("GClass:\nWriteable custom GObject property " ++ single_quote).data,
      (single_quote ++ " on GClass decorated class " ++ single_quote ++ class_name
        ++ single_quote ++ " is not configured with a getter or a setter function.").data, ?_⟩
    simp [String.data_append, List.append_assoc]

/-- C5: if any writable, non-construct-only property of the registered class
lacks a get/set accessor pair (class prototype checked before the instance),
then the first-instance initialization fails with a thrown error whose
message contains both the class name and the (failing) property name. -/
theorem gclass_missing_accessor_fatal (class_name : String)
    (props : List (String × Nat)) (proto own : String → Option JSAccessorDesc)
    (h : ∃ p ∈ props, writable_not_construct_only p.2 = true ∧
      accessor_pair_ok proto own p.1 = false) :
    ∃ key flags, (key, flags) ∈ props ∧ writable_not_construct_only flags = true ∧
      accessor_pair_ok proto own key = false ∧
      gclass_init_accessors class_name props proto own
        = Except.error (accessor_error_msg class_name key) ∧
      (∃ u v, u ++ class_name.data ++ v = (accessor_error_msg class_name key).data) ∧
      (∃ u v, u ++ key.data ++ v = (accessor_error_msg class_name key).data) := by
  induction props with
  | nil => simp at h
  | cons p rest ih =>
    obtain ⟨q, hq, hqw, hqf⟩ := h
    rcases p with ⟨key, flags⟩
    by_cases hw : writable_not_construct_only flags = true
    · by_cases hok : accessor_pair_ok proto own key = true
      · have hqrest : q ∈ rest := by
          rcases List.mem_cons.mp hq with hq1 | hq2
          · exfalso
            rw [hq1] at hqf
            simp only at hqf
            rw [hok] at hqf
            simp at hqf
          · exact hq2
        obtain ⟨key', flags', hmem, h1, h2, h3, h4, h5⟩ := ih ⟨q, hqrest, hqw, hqf⟩
        refine ⟨key', flags', List.mem_cons_of_mem _ hmem, h1, h2, ?_, h4, h5⟩
        unfold gclass_init_accessors
        rw [if_pos hw, if_pos hok]
        exact h3
      · have hfail : accessor_pair_ok proto own key = false := by
          simpa using hok
        refine ⟨key, flags, List.mem_cons_self _ _, hw, hfail, ?_,
          (accessor_error_msg_mentions class_name key).1,
          (accessor_error_msg_mentions class_name key).2⟩
        unfold gclass_init_accessors
        rw [if_pos hw, if_neg (by simp [hfail])]
    · have hqrest : q ∈ rest := by
        rcases List.mem_cons.mp hq with hq1 | hq2
        · exfalso
          rw [hq1] at hqw
          simp only at hqw
          exact hw hqw
        · exact hq2
      obtain ⟨key', flags', hmem, h1, h2, h3, h4, h5⟩ := ih ⟨q, hqrest, hqw, hqf⟩
      refine ⟨key', flags', List.mem_cons_of_mem _ hmem, h1, h2, ?_, h4, h5⟩
      unfold gclass_init_accessors
      rw [if_neg hw]
      exact h3

theorem gclass_missing_accessor_fatal_witness :
    gclass_init_accessors "MyWidget" [("title", 3)] (fun _ => none) (fun _ => none)
      = Except.error (accessor_error_msg "MyWidget" "title") := by
  obtain ⟨k, f, hm, _hw, _hok, he, _h4, _h5⟩ :=
    gclass_missing_accessor_fatal "MyWidget" [("title", 3)] (fun _ => none) (fun _ => none)
      ⟨("title", 3), by simp, rfl, rfl⟩
  simp only [List.mem_singleton, Prod.mk.injEq] at hm
  rw [hm.1] at he
  exact he

/-! ## The installed getter wrapper (`src/gobjectify.ts` 292–295)

```ts
const get = function (): any {
    return desc.get?.call(instance) ?? spec.get_default_value() ?? null
}
```

JavaScript `null`/`undefined` results are modelled as `Option.none`; the
optional call `desc.get?.call` on an absent getter yields `undefined`. -/
def installed_get {V : Type} (get : Option (Unit → Option V)) (default : Option V) :
    Option V :=
  match (match get with | some f => f () | none => none) with
  | some v => some v
  | none =>
    match default with
    | some d => some d
    | none => none

/-- C9: whenever the original getter returns a nullish value, the installed
getter returns the spec default (or null when the default is itself nullish)
— even when the getter is present, not only when it is absent. -/
theorem gclass_getter_nullish_falls_back {V : Type} (f : Unit → Option V)
    (default : Option V) (h : f () = none) :
    installed_get (some f) default = default := by
  cases default <;> simp [installed_get, h]

theorem gclass_getter_nullish_falls_back_witness :
    installed_get (some (fun _ => (none : Option Nat))) (some 5) = some 5 :=
  gclass_getter_nullish_falls_back (fun _ => none) (some 5) rfl

/-! ## The signal side table (`src/gobjectify.ts` 99, 367–377, 403–412)

`signals_map` is a `WeakMap` keyed by class identity (modelled as `Nat`).
The `Signal` decorator upserts the signal record of its target class;
`GClass` reads `signals_map.get(target) ?? {}` into the registration and then
runs `signals_map.delete(target)`. -/

/-- The fields of the `Signal` metadata type (`flags`, `param_types`,
`return_type`, `accumulator`), all optional; their platform value types are
abstracted to `Nat`. -/
structure SignalDef where
  flags : Option Nat := none
  param_types : Option (List Nat) := none
  return_type : Option Nat := none
  accumulator : Option Nat := none
  deriving DecidableEq, Repr

/-- JavaScript object property assignment `signals[name] = props`:
replace an existing entry or append a new one. -/
def record_set (signals : List (String × SignalDef)) (name : String) (props : SignalDef) :
    List (String × SignalDef) :=
  if signals.any (fun p => p.1 = name) then
    signals.map (fun p => if p.1 = name then (name, props) else p)
  else
    signals ++ [(name, props)]

abbrev SignalsMap := Nat → Option (List (String × SignalDef))

/-- The `Signal(name, props)` decorator body. -/
def signal_decorator (m : SignalsMap) (target : Nat) (name : String)
    (props : Option SignalDef) : SignalsMap :=
  let signals := (m target).getD []
  fun c => if c = target then some (record_set signals name (props.getD {})) else m c

/-- The `GClass` registration step: the signal table submitted to
`GObject.registerClass` (`signals_map.get(target) ?? {}`) and the side table
after `signals_map.delete(target)`. -/
def registerClass_signals (m : SignalsMap) (target : Nat) :
    List (String × SignalDef) × SignalsMap :=
  ((m target).getD [], fun c => if c = target then none else m c)

/-- C6: registering class `A` deletes `A`'s side-table entry (so it is empty
for `A` immediately afterwards), leaves any other class `B`'s entry
untouched, a later registration of `B` submits exactly `B`'s own accumulated
entry, and `Signal` declarations for `A` never alter `B`'s entry. -/
theorem signal_side_table_drained (m : SignalsMap) (A B : Nat) (hAB : A ≠ B) :
    ((registerClass_signals m A).2 A = none) ∧
    ((registerClass_signals m A).2 B = m B) ∧
    ((registerClass_signals (registerClass_signals m A).2 B).1 = (m B).getD []) ∧
    (∀ name props, signal_decorator m A name props B = m B) := by
  refine ⟨?_, ?_, ?_, ?_⟩ <;>
    simp [registerClass_signals, signal_decorator, Ne.symm hAB]

theorem signal_side_table_drained_witness :
    (registerClass_signals
        (signal_decorator (fun _ => none) 0 "clicked" none) 0).2 0 = none :=
  (signal_side_table_drained (signal_decorator (fun _ => none) 0 "clicked" none)
    0 1 (by decide)).1

/-! ## The `Debounce` method decorator (`src/gobjectify.ts` 434–472)

Per decorated method per instance, three symbol-keyed slots hold the pending
timer handle, the latest call arguments and the trailing-pending flag.  The
timer handle is modelled as the absolute deadline (`call time + interval`)
of the pending `GLib.timeout_add` source:

* on each call: if the mode includes `leading` and no timer is scheduled,
  invoke immediately with the current arguments; otherwise stash the
  arguments and set the trailing flag; then cancel any pending timer and
  schedule a new one `interval` from now;
* when the timer fires: clear the handle; if the mode includes `trailing`
  and the flag is set, invoke with the stashed arguments (`?? []`) and clear
  the flag.

A driver (`debounce_run`) feeds a time-ordered list of calls to the decorated
method, firing the pending timer first whenever its deadline has passed, and
fires the last pending timer at the end; it returns the list of invocations
of the original method, each as `(time, arguments)`. -/

structure DebounceState (α : Type) where
  timeout : Option Nat
  last_args : Option (List α)
  should_call_trailing : Bool
  deriving DecidableEq, Repr

def debounce_initial {α : Type} : DebounceState α :=
  { timeout := none, last_args := none, should_call_trailing := false }

/-- The body of `debounced` up to the timer scheduling
(`GLib.timeout_add` at deadline `t + interval`). -/
def debounced_call {α : Type} (leading : Bool) (interval : Nat) (t : Nat) (args : List α)
    (s : DebounceState α) : DebounceState α × List (Nat × List α) :=
  let has_scheduled := s.timeout.isSome
  let step :=
    if leading && !has_scheduled then (s, [(t, args)])
    else ({ s with last_args := some args, should_call_trailing := true },
      ([] : List (Nat × List α)))
  ({ step.1 with timeout := some (t + interval) }, step.2)

/-- The body of the `GLib.timeout_add` callback, firing at time `d`. -/
def debounce_timeout_fire {α : Type} (trailing : Bool) (d : Nat) (s : DebounceState α) :
    DebounceState α × List (Nat × List α) :=
  let s1 := { s with timeout := (none : Option Nat) }
  if trailing && s1.should_call_trailing then
    ({ s1 with should_call_trailing := false }, [(d, s1.last_args.getD [])])
  else (s1, [])

/-- Whether the pending timer (if any) is due at time `t`. -/
def timer_due {α : Type} (s : DebounceState α) (t : Nat) : Bool :=
  match s.timeout with
  | some d => decide (d ≤ t)
  | none => false

/-- Driver step for one call event: fire the pending timer if its deadline
has passed, then run the debounced call. -/
def debounce_step {α : Type} (leading trailing : Bool) (interval : Nat)
    (s : DebounceState α) (ev : Nat × List α) : DebounceState α × List (Nat × List α) :=
  let fired :=
    if timer_due s ev.1 then
      debounce_timeout_fire trailing (s.timeout.getD 0) s
    else (s, [])
  let called := debounced_call leading interval ev.1 ev.2 fired.1
  (called.1, fired.2 ++ called.2)

def debounce_run_aux {α : Type} (leading trailing : Bool) (interval : Nat) :
    DebounceState α → List (Nat × List α) → List (Nat × List α) × DebounceState α
  | s, [] => ([], s)
  | s, ev :: rest =>
    let step := debounce_step leading trailing interval s ev
    let next := debounce_run_aux leading trailing interval step.1 rest
    (step.2 ++ next.1, next.2)

/-- Feed a time-ordered call list through the debounced method from the fresh
per-slot state, then let the final pending timer (if any) fire. -/
def debounce_run {α : Type} (leading trailing : Bool) (interval : Nat)
    (calls : List (Nat × List α)) : List (Nat × List α) :=
  let r := debounce_run_aux leading trailing interval debounce_initial calls
  r.1 ++ (debounce_timeout_fire trailing (r.2.timeout.getD 0) r.2).2

lemma debounce_step_pending {α : Type} (leading : Bool) (I t d : Nat) (a : List α)
    (la : Option (List α)) (sct : Bool) (h : t < d) :
    debounce_step leading true I ⟨some d, la, sct⟩ (t, a)
      = (⟨some (t + I), some a, true⟩, []) := by
  unfold debounce_step timer_due debounced_call
  simp [decide_eq_false (not_le.mpr h)]

lemma debounce_step_fresh {α : Type} (leading : Bool) (I t : Nat) (a : List α) :
    debounce_step leading true I (debounce_initial : DebounceState α) (t, a)
      = (if leading then (⟨some (t + I), none, false⟩, [(t, a)])
         else (⟨some (t + I), some a, true⟩, [])) := by
  unfold debounce_step timer_due debounced_call debounce_initial
  cases leading <;> simp

/-- Inside a burst (every call earlier than the pending deadline), each call
only re-stashes the arguments and re-arms the timer; nothing is invoked. -/
lemma debounce_run_aux_stash {α : Type} (leading : Bool) (I : Nat) :
    ∀ (calls : List (Nat × List α)) (d : Nat) (la : Option (List α)) (sct : Bool)
      (t0 : Nat) (a0 : List α),
      calls.head? = some (t0, a0) → t0 < d →
      List.Chain' (fun p q => q.1 < p.1 + I) calls →
      ∃ tl al, calls.getLast? = some (tl, al) ∧
        debounce_run_aux leading true I ⟨some d, la, sct⟩ calls
          = ([], ⟨some (tl + I), some al, true⟩) := by
  intro calls
  induction calls with
  | nil => intro d la sct t0 a0 hhead; simp at hhead
  | cons ev rest ih =>
    intro d la sct t0 a0 hhead hlt hchain
    rcases ev with ⟨t, a⟩
    have hta : t = t0 ∧ a = a0 := by
      simp only [List.head?_cons, Option.some.injEq, Prod.mk.injEq] at hhead
      exact hhead
    rcases rest with _ | ⟨⟨t2, a2⟩, rest'⟩
    · refine ⟨t, a, rfl, ?_⟩
      unfold debounce_run_aux
      rw [debounce_step_pending leading I t d a la sct (hta.1 ▸ hlt)]
      simp [debounce_run_aux]
    · have hch := List.chain'_cons.mp hchain
      obtain ⟨tl, al, hlast, hrun⟩ :=
        ih (t + I) (some a) true t2 a2 rfl hch.1 hch.2
      refine ⟨tl, al, ?_, ?_⟩
      · rw [List.getLast?_cons_cons]
        exact hlast
      · unfold debounce_run_aux
        rw [debounce_step_pending leading I t d a la sct (hta.1 ▸ hlt)]
        simp only [List.nil_append]
        rw [hrun]

lemma debounce_run_aux_cons {α : Type} (leading trailing : Bool) (I : Nat)
    (s : DebounceState α) (ev : Nat × List α) (rest : List (Nat × List α)) :
    debounce_run_aux leading trailing I s (ev :: rest)
      = ((debounce_step leading trailing I s ev).2
          ++ (debounce_run_aux leading trailing I
                (debounce_step leading trailing I s ev).1 rest).1,
        (debounce_run_aux leading trailing I
          (debounce_step leading trailing I s ev).1 rest).2) := rfl

/-- C7: for a burst of calls within one interval (each call earlier than the
deadline armed by its predecessor): trailing mode produces exactly one
invocation, with the last call's arguments, when the interval elapses after
the last call; leading+trailing mode invokes immediately at the first call
with its own arguments, plus exactly one trailing invocation with the latest
arguments when there was more than one call. -/
theorem debounce_burst_behavior {α : Type} (I : Nat) (calls : List (Nat × List α))
    (tf tl : Nat) (af al : List α)
    (hfirst : calls.head? = some (tf, af)) (hlast : calls.getLast? = some (tl, al))
    (hchain : List.Chain' (fun p q => q.1 < p.1 + I) calls) :
    debounce_run false true I calls = [(tl + I, al)] ∧
    debounce_run true true I calls
      = (tf, af) :: (if calls.length = 1 then [] else [(tl + I, al)]) := by
  rcases calls with _ | ⟨⟨t, a⟩, rest⟩
  · simp at hfirst
  · have hta : t = tf ∧ a = af := by
      simp only [List.head?_cons, Option.some.injEq, Prod.mk.injEq] at hfirst
      exact hfirst
    rcases rest with _ | ⟨⟨t2, a2⟩, rest'⟩
    · have htl : t = tl ∧ a = al := by
        simp only [List.getLast?_singleton, Option.some.injEq, Prod.mk.injEq] at hlast
        exact hlast
      constructor
      · simp only [debounce_run, debounce_run_aux, debounce_step_fresh]
        simp [debounce_timeout_fire, htl.1, htl.2]
      · simp only [debounce_run, debounce_run_aux, debounce_step_fresh]
        simp [debounce_timeout_fire, hta.1, hta.2]
    · have hch := List.chain'_cons.mp hchain
      constructor
      · obtain ⟨tl', al', hlast', hrun⟩ :=
          debounce_run_aux_stash false I ((t2, a2) :: rest') (t + I) (some a) true
            t2 a2 rfl hch.1 hch.2
        have heq : tl' = tl ∧ al' = al := by
          have h2 : ((t, a) :: (t2, a2) :: rest').getLast? = some (tl', al') := by
            rw [List.getLast?_cons_cons]
            exact hlast'
          have h3 := hlast.symm.trans h2
          simp only [Option.some.injEq, Prod.mk.injEq] at h3
          exact ⟨h3.1.symm, h3.2.symm⟩
        have hstep : debounce_step false true I (debounce_initial : DebounceState α) (t, a)
            = (⟨some (t + I), some a, true⟩, []) := by
          rw [debounce_step_fresh]
          simp
        simp only [debounce_run]
        rw [debounce_run_aux_cons]
        simp only [hstep]
        rw [hrun]
        simp [debounce_timeout_fire, heq.1, heq.2]
      · obtain ⟨tl', al', hlast', hrun⟩ :=
          debounce_run_aux_stash true I ((t2, a2) :: rest') (t + I) none false
            t2 a2 rfl hch.1 hch.2
        have heq : tl' = tl ∧ al' = al := by
          have h2 : ((t, a) :: (t2, a2) :: rest').getLast? = some (tl', al') := by
            rw [List.getLast?_cons_cons]
            exact hlast'
          have h3 := hlast.symm.trans h2
          simp only [Option.some.injEq, Prod.mk.injEq] at h3
          exact ⟨h3.1.symm, h3.2.symm⟩
        have hstep : debounce_step true true I (debounce_initial : DebounceState α) (t, a)
            = (⟨some (t + I), none, false⟩, [(t, a)]) := by
          rw [debounce_step_fresh]
          simp
        simp only [debounce_run]
        rw [debounce_run_aux_cons]
        simp only [hstep]
        rw [hrun]
        simp [debounce_timeout_fire, heq.1, heq.2, hta.1, hta.2]

theorem debounce_burst_behavior_witness :
    debounce_run false true 100
        [(0, [1]), (10, [2]), (20, [3]), (30, [4]), (40, [5])] = [(140, [5])] :=
  (debounce_burst_behavior 100 [(0, [1]), (10, [2]), (20, [3]), (30, [4]), (40, [5])]
    0 40 [1] [5] rfl rfl (by norm_num [List.chain'_cons])).1

/-! ## The `connect_async` bridge (`src/gobjectify.ts` 658–682)

`connect_async(obj, resolve_signal, reject_signal?)` connects a handler for
`resolve_signal`; when `reject_signal` is truthy it also connects a handler
for it (`if (!reject_signal) return` skips falsy values, i.e. an omitted
argument or the empty string).  Each handler first runs `cleanup()`
(disconnecting both handlers) and then settles the promise: the resolve
handler resolves with the emitted argument list, the reject handler rejects
with `new Error` over a template naming the reject signal and its arguments
(a JavaScript array interpolates as its comma-joined elements).  A settled
promise ignores later `resolve`/`reject` calls.  Emitted arguments are
modelled as lists of strings. -/

structure AsyncBridgeState where
  resolve_connected : Bool
  reject_connected : Bool
  settled : Option (Except String (List String))
  deriving Repr

/-- JavaScript truthiness of the optional `reject_signal` string. -/
def js_truthy_str : Option String → Bool
  | none => false
  | some s => s != ""

/-- The connections made by `connect_async` before any emission. -/
def connect_async_init (reject_signal : Option String) : AsyncBridgeState :=
  { resolve_connected := true,
    reject_connected := js_truthy_str reject_signal,
    settled := none }

/-- The `new Error` message: Rejection signal: reject_signal (in quotes) triggered
with args: followed by the comma-joined arguments. -/
def reject_error_msg (reject_signal : String) (args : List String) : String :=
  "Rejection signal: " ++ single_quote ++ reject_signal ++ single_quote
    ++ " triggered with args: " ++ String.intercalate "," args

/-- One signal emission against the bridge: a still-connected handler whose
signal matches runs `cleanup()` (dropping both connections) and settles the
promise; otherwise the emission is unobserved. -/
def bridge_emit (resolve_signal : String) (reject_signal : Option String)
    (s : AsyncBridgeState) (sig : String) (args : List String) : AsyncBridgeState :=
  if sig = resolve_signal ∧ s.resolve_connected then
    { resolve_connected := false,
      reject_connected := false,
      settled := match s.settled with
        | none => some (Except.ok args)
        | some r => some r }
  else if some sig = reject_signal ∧ s.reject_connected then
    { resolve_connected := false,
      reject_connected := false,
      settled := match s.settled with
        | none => some (Except.error (reject_error_msg sig args))
        | some r => some r }
  else s

/-- A sequence of emissions. -/
def bridge_emits (resolve_signal : String) (reject_signal : Option String) :
    AsyncBridgeState → List (String × List String) → AsyncBridgeState
  | s, [] => s
  | s, ev :: rest =>
    bridge_emits resolve_signal reject_signal
      (bridge_emit resolve_signal reject_signal s ev.1 ev.2) rest

lemma reject_error_msg_mentions (reject_signal : String) (args : List String) :
    (∃ u v, u ++ reject_signal.data ++ v = (reject_error_msg reject_signal args).data) ∧
    (∃ u v, u ++ (String.intercalate "," args).data ++ v
        = (reject_error_msg reject_signal args).data) := by
  unfold reject_error_msg
  constructor
  · refine ⟨("Rejection signal: " ++ single_quote).data,
      (single_quote ++ " triggered with args: " ++ String.intercalate "," args).data, ?_⟩
    simp [String.data_append, List.append_assoc]
  · refine ⟨("Rejection signal: " ++ single_quote ++ reject_signal ++ single_quote
        ++ " triggered with args: ").data, ([] : List Char), ?_⟩
    simp [String.data_append, List.append_assoc]

lemma bridge_emit_settled_noop (r : String) (j : Option String) (sig : String)
    (args : List String) (s : AsyncBridgeState)
    (h1 : s.resolve_connected = false) (h2 : s.reject_connected = false) :
    bridge_emit r j s sig args = s := by
  unfold bridge_emit
  rw [if_neg (by simp [h1]), if_neg (by simp [h2])]

/-- C8: with both a resolve and a (truthy, distinct) reject signal connected,
the first signal to fire wins: it disconnects both handlers and settles the
promise — with the emitted arguments on the resolve signal, or with an error
whose message contains the reject signal's name and its comma-joined
arguments on the reject signal — and any later emission of either signal
leaves the state unchanged. -/
theorem connect_async_first_signal_wins (r j : String) (args : List String)
    (hj : j ≠ "") (hrj : r ≠ j) :
    (bridge_emit r (some j) (connect_async_init (some j)) r args
        = { resolve_connected := false, reject_connected := false,
            settled := some (Except.ok args) } ∧
      ∀ sig2 args2,
        bridge_emit r (some j) (bridge_emit r (some j) (connect_async_init (some j)) r args)
          sig2 args2
        = bridge_emit r (some j) (connect_async_init (some j)) r args) ∧
    (bridge_emit r (some j) (connect_async_init (some j)) j args
        = { resolve_connected := false, reject_connected := false,
            settled := some (Except.error (reject_error_msg j args)) } ∧
      (∃ u v, u ++ j.data ++ v = (reject_error_msg j args).data) ∧
      (∃ u v, u ++ (String.intercalate "," args).data ++ v
          = (reject_error_msg j args).data) ∧
      ∀ sig2 args2,
        bridge_emit r (some j) (bridge_emit r (some j) (connect_async_init (some j)) j args)
          sig2 args2
        = bridge_emit r (some j) (connect_async_init (some j)) j args) := by
  have hres : bridge_emit r (some j) (connect_async_init (some j)) r args
      = { resolve_connected := false, reject_connected := false,
          settled := some (Except.ok args) } := by
    unfold bridge_emit connect_async_init
    rw [if_pos ⟨rfl, rfl⟩]
  have hrej : bridge_emit r (some j) (connect_async_init (some j)) j args
      = { resolve_connected := false, reject_connected := false,
          settled := some (Except.error (reject_error_msg j args)) } := by
    unfold bridge_emit connect_async_init
    rw [if_neg (by simp [Ne.symm hrj])]
    rw [if_pos ⟨rfl, by simp [js_truthy_str, hj]⟩]
  refine ⟨⟨hres, ?_⟩, hrej, (reject_error_msg_mentions j args).1,
    (reject_error_msg_mentions j args).2, ?_⟩
  · intro sig2 args2
    rw [hres]
    exact bridge_emit_settled_noop r (some j) sig2 args2 _ rfl rfl
  · intro sig2 args2
    rw [hrej]
    exact bridge_emit_settled_noop r (some j) sig2 args2 _ rfl rfl

theorem connect_async_first_signal_wins_witness :
    bridge_emit "done" (some "failed") (connect_async_init (some "failed")) "done" ["42"]
      = { resolve_connected := false, reject_connected := false,
          settled := some (Except.ok ["42"]) } :=
  (connect_async_first_signal_wins "done" "failed" ["42"]
    (by decide) (by decide)).1.1

/-- C10: when the optional reject signal is omitted, only the resolve handler
is connected; no emission sequence can ever settle the promise with an
error, and the promise stays pending until the resolve signal fires. -/
theorem connect_async_no_reject_never_rejects (r : String)
    (evs : List (String × List String)) :
    ((connect_async_init none).reject_connected = false) ∧
    (∀ m, (bridge_emits r none (connect_async_init none) evs).settled
        ≠ some (Except.error m)) ∧
    ((∀ ev ∈ evs, ev.1 ≠ r) →
      (bridge_emits r none (connect_async_init none) evs).settled = none) := by
  refine ⟨rfl, ?_, ?_⟩
  · have key : ∀ (l : List (String × List String)) (s : AsyncBridgeState),
        (∀ m, s.settled ≠ some (Except.error m)) →
        ∀ m, (bridge_emits r none s l).settled ≠ some (Except.error m) := by
      intro l
      induction l with
      | nil => intro s hs; exact hs
      | cons ev rest ih =>
        intro s hs
        refine ih (bridge_emit r none s ev.1 ev.2) ?_
        unfold bridge_emit
        split_ifs with h1 h2
        · intro m
          simp only
          cases hsettled : s.settled with
          | none => simp
          | some res =>
            have := hs
            simp only [hsettled] at this ⊢
            intro hcontra
            exact this m hcontra
        · exact absurd h2.1 (by simp)
        · exact hs
    exact key evs (connect_async_init none) (by simp [connect_async_init])
  · have key : ∀ (l : List (String × List String)) (s : AsyncBridgeState),
        (∀ ev ∈ l, ev.1 ≠ r) →
        bridge_emits r none s l = s := by
      intro l
      induction l with
      | nil => intro s _; rfl
      | cons ev rest ih =>
        intro s hs
        have hne : ev.1 ≠ r := hs ev (List.mem_cons_self _ _)
        have hemit : bridge_emit r none s ev.1 ev.2 = s := by
          unfold bridge_emit
          rw [if_neg (by simp [hne]), if_neg (by simp)]
        unfold bridge_emits
        rw [hemit]
        exact ih s (fun q hq => hs q (List.mem_cons_of_mem _ hq))
    intro hnone
    rw [key evs (connect_async_init none) hnone]
    rfl

theorem connect_async_no_reject_never_rejects_witness :
    (bridge_emits "done" none (connect_async_init none) [("other", ["1"])]).settled
      = none :=
  (connect_async_no_reject_never_rejects "done" [("other", ["1"])]).2.2 (by decide)
